import Mathlib

/-!
Verification of the in-memory TTL cache and its route handlers from the
save-file hosting service (cache code: `getCache`, `setCache`,
`invalidateCache`, `CACHE_TTL_MS`; handlers: the listing, upload and delete
routes). The cache is a plain object mapping string keys to
`{ data, timestamp }` entries; we embed it as a function from keys to
optional entries, with wall-clock times as integers (millisecond values from
`Date.now()`).
-/

namespace SaveSystem

/-- One cache entry, mirroring the object literal `{ data: data, timestamp: Date.now() }`. -/
structure Entry (V : Type) where
  data : V
  timestamp : Int
deriving Repr, DecidableEq

/-- The cache object `const cache = {}`: a partial map from string keys to entries. -/
abbrev Cache (V : Type) := String → Option (Entry V)

/-- The empty cache the process starts with. -/
def emptyCache (V : Type) : Cache V := fun _ => none

/-- `const CACHE_TTL_MS = 5 * 60 * 1000` — five minutes in milliseconds. -/
def CACHE_TTL_MS : Int := 5 * 60 * 1000

/-- Embedding of `getCache(key)`.  The source reads the entry, returns its
`data` when `Date.now() - entry.timestamp < CACHE_TTL_MS`, otherwise deletes a
present (stale) entry and returns `null`.  The returned pair is (result,
cache state after the call); `now` stands for the single `Date.now()` read. -/
def getCache (c : Cache V) (key : String) (now : Int) : Option V × Cache V :=
  match c key with
  | some entry =>
      if now - entry.timestamp < CACHE_TTL_MS then
        (some entry.data, c)
      else
        (none, fun k => if k = key then none else c k)
  | none => (none, c)

/-- Embedding of `setCache(key, data)`: unconditionally stores
`{ data, timestamp: Date.now() }` under `key`. -/
def setCache (c : Cache V) (key : String) (data : V) (now : Int) : Cache V :=
  fun k => if k = key then some ⟨data, now⟩ else c k

/-- Embedding of `invalidateCache(key)`: `if (cache[key]) delete cache[key]`. -/
def invalidateCache (c : Cache V) (key : String) : Cache V :=
  match c key with
  | some _ => fun k => if k = key then none else c k
  | none => c

/-- The cache key built by the handlers: `` `user:${user.id}:saves` ``. -/
def userSavesKey (uid : String) : String := "user:" ++ uid ++ ":saves"

/-- A row of the listing query: the columns selected by the listing route
(`id, file_name, size_bytes, version, custom_metadata, updated_at`). -/
structure FileMeta where
  id : Nat
  file_name : String
  size_bytes : Nat
  version : String
  custom_metadata : String
  updated_at : Int
deriving Repr, DecidableEq

/-- The metadata row fetched by the delete route (`id, storage_path`). -/
structure MetaRow where
  id : Nat
  storage_path : String
deriving Repr, DecidableEq

/-- Embedding of the listing route (`router.get('/')`): try the cache; on a
hit return the cached listing; on a miss consult the backing store, propagate
its failure as a 500 without touching the cache, and on success store the
result (verbatim, an empty listing included) and return it.  The cached
value is a JS array, which is truthy even when empty, so the source's
`if (cachedSaves)` test coincides with presence of a fresh entry.  `tGet`
and `tSet` are the two `Date.now()` reads (the backing call awaits in
between); `backing` is the result of the Supabase query. -/
def listSavesRoute (c : Cache (List FileMeta)) (uid : String) (tGet tSet : Int)
    (backing : Except String (List FileMeta)) :
    (Nat × Except String (List FileMeta)) × Cache (List FileMeta) :=
  let key := userSavesKey uid
  let r := getCache c key tGet
  match r.1 with
  | some cachedSaves => ((200, Except.ok cachedSaves), r.2)
  | none =>
      match backing with
      | Except.error e => ((500, Except.error e), r.2)
      | Except.ok data => ((200, Except.ok data), setCache r.2 key data tSet)

/-- Embedding of the upload route (`router.post('/upload')`): 400 without a
file; 500 when the storage upload fails; 500 when the metadata upsert fails
(the uploaded object is also removed, which does not touch the cache); on
success invalidate the user's listing key and answer 201. -/
def uploadRoute (c : Cache (List FileMeta)) (hasFile : Bool) (uid : String)
    (storageUpload : Except String Unit) (metaUpsert : Except String FileMeta) :
    Nat × Cache (List FileMeta) :=
  if !hasFile then (400, c)
  else
    match storageUpload with
    | Except.error _ => (500, c)
    | Except.ok _ =>
        match metaUpsert with
        | Except.error _ => (500, c)
        | Except.ok _ => (201, invalidateCache c (userSavesKey uid))

/-- Embedding of the delete route (`router.delete('/:fileName')`): 404 when
the metadata lookup fails or finds nothing; a storage-removal error is only
logged and the handler proceeds; 500 when the database delete fails; on
success invalidate the user's listing key and answer 200. -/
def deleteRoute (c : Cache (List FileMeta)) (uid : String)
    (metaLookup : Except String MetaRow) (storageRemove : Except String Unit)
    (dbDelete : Except String Unit) : Nat × Cache (List FileMeta) :=
  match metaLookup with
  | Except.error _ => (404, c)
  | Except.ok _ =>
      match dbDelete with
      | Except.error _ => (500, c)
      | Except.ok _ => (200, invalidateCache c (userSavesKey uid))

section Lemmas

variable {V : Type}

theorem getCache_miss_deletes (c : Cache V) (key : String) (now : Int)
    (h : (getCache c key now).1 = none) : (getCache c key now).2 key = none := by
  unfold getCache at *
  cases hc : c key with
  | none => simp [hc]
  | some e =>
      simp only [hc] at h ⊢
      by_cases hf : now - e.timestamp < CACHE_TTL_MS
      · simp [hf] at h
      · simp [hf]

theorem invalidateCache_apply_self (c : Cache V) (key : String) :
    invalidateCache c key key = none := by
  unfold invalidateCache
  cases hc : c key with
  | none => exact hc
  | some e => simp

theorem getCache_of_absent (c : Cache V) (key : String) (now : Int)
    (h : c key = none) : getCache c key now = (none, c) := by
  unfold getCache
  simp [h]

theorem invalidateCache_absent (c : Cache V) (key : String)
    (h : c key = none) : invalidateCache c key = c := by
  unfold invalidateCache
  simp [h]

theorem getCache_invalidated (c : Cache V) (key : String) (now : Int) :
    (getCache (invalidateCache c key) key now).1 = none := by
  have h := invalidateCache_apply_self c key
  unfold getCache
  rw [h]

end Lemmas

section ClaimTheorems

variable {V : Type}

/-- C1: after `setCache k v` at time `t`, a `getCache k` at exactly
`t + CACHE_TTL_MS` (elapsed equal to the TTL) returns `none` — the boundary
is treated as expired, never fresh — and the entry is removed. -/
theorem expiry_boundary_is_expired (c : Cache V) (k : String) (v : V) (t : Int) :
    (getCache (setCache c k v t) k (t + CACHE_TTL_MS)).1 = none ∧
    (getCache (setCache c k v t) k (t + CACHE_TTL_MS)).2 k = none := by
  have hk : setCache c k v t k = some ⟨v, t⟩ := by simp [setCache]
  have helapsed : t + CACHE_TTL_MS - t = CACHE_TTL_MS := by ring
  unfold getCache
  rw [hk]
  simp [helapsed]

/-- C2: after `setCache k v` at time `t`, a `getCache k` at any time `t'`
with `t ≤ t'` and `t' - t < CACHE_TTL_MS` returns exactly the stored value. -/
theorem fresh_hit_returns_value (c : Cache V) (k : String) (v : V) (t t' : Int)
    (hle : t ≤ t') (hfresh : t' - t < CACHE_TTL_MS) :
    (getCache (setCache c k v t) k t').1 = some v := by
  have hk : setCache c k v t k = some ⟨v, t⟩ := by simp [setCache]
  unfold getCache
  rw [hk]
  simp [hfresh]

theorem fresh_hit_returns_value_w :
    (getCache (setCache (emptyCache Nat) "user:42:saves" 7 0) "user:42:saves" 100000).1
      = some 7 :=
  fresh_hit_returns_value (emptyCache Nat) "user:42:saves" 7 0 100000
    (by decide) (by decide)

/-- C3: in the listing read-through, on a cache miss a backing-store failure
propagates as a request-level 500, the cache is exactly the state the lookup
left (`setCache` is never reached) and holds no entry for the key; a
successful listing — the empty listing included — is stored like any other
value. -/
theorem backing_failure_never_cached (c : Cache (List FileMeta)) (uid : String)
    (tGet tSet : Int)
    (hmiss : (getCache c (userSavesKey uid) tGet).1 = none) :
    (∀ e, listSavesRoute c uid tGet tSet (Except.error e) =
        ((500, Except.error e), (getCache c (userSavesKey uid) tGet).2) ∧
      (listSavesRoute c uid tGet tSet (Except.error e)).2 (userSavesKey uid) = none) ∧
    ∀ L, listSavesRoute c uid tGet tSet (Except.ok L) =
        ((200, Except.ok L),
          setCache (getCache c (userSavesKey uid) tGet).2 (userSavesKey uid) L tSet) := by
  have hdel := getCache_miss_deletes c (userSavesKey uid) tGet hmiss
  refine ⟨fun e => ⟨?_, ?_⟩, fun L => ?_⟩
  · simp only [listSavesRoute, hmiss]
  · simp only [listSavesRoute, hmiss]
    exact hdel
  · simp only [listSavesRoute, hmiss]

theorem backing_failure_never_cached_w :
    ((listSavesRoute (emptyCache (List FileMeta)) "42" 0 1
        (Except.error "db down")).2 (userSavesKey "42") = none) ∧
    (listSavesRoute (emptyCache (List FileMeta)) "42" 0 1 (Except.ok []) =
      ((200, Except.ok []),
        setCache (emptyCache (List FileMeta)) (userSavesKey "42") [] 1)) :=
  have h := backing_failure_never_cached (emptyCache (List FileMeta)) "42" 0 1 rfl
  ⟨(h.1 "db down").2, h.2 []⟩

/-- C4: an upload or delete that succeeds (201 resp. 200) leaves the cache
with the user's listing key invalidated, so any later `getCache` of that key
returns `none` whatever the time; every failing path (missing file, storage
upload error, metadata upsert error, missing metadata row, database delete
error) leaves the cache untouched. -/
theorem mutation_invalidates_on_success (c : Cache (List FileMeta)) (uid : String)
    (m : FileMeta) (row : MetaRow) (e : String)
    (su : Except String Unit) (mu : Except String FileMeta)
    (sr dr : Except String Unit) (t : Int) :
    uploadRoute c true uid (Except.ok ()) (Except.ok m) =
        (201, invalidateCache c (userSavesKey uid)) ∧
    (getCache (uploadRoute c true uid (Except.ok ()) (Except.ok m)).2
        (userSavesKey uid) t).1 = none ∧
    (uploadRoute c false uid su mu).2 = c ∧
    (uploadRoute c true uid (Except.error e) mu).2 = c ∧
    (uploadRoute c true uid (Except.ok ()) (Except.error e)).2 = c ∧
    deleteRoute c uid (Except.ok row) sr (Except.ok ()) =
        (200, invalidateCache c (userSavesKey uid)) ∧
    (getCache (deleteRoute c uid (Except.ok row) sr (Except.ok ())).2
        (userSavesKey uid) t).1 = none ∧
    (deleteRoute c uid (Except.error e) sr dr).2 = c ∧
    (deleteRoute c uid (Except.ok row) sr (Except.error e)).2 = c := by
  refine ⟨rfl, ?_, rfl, ?_, rfl, rfl, ?_, rfl, rfl⟩
  · exact getCache_invalidated c (userSavesKey uid) t
  · cases mu <;> rfl
  · exact getCache_invalidated c (userSavesKey uid) t

/-- C5: a `getCache` that returns `none` is exactly lazy cleanup: an expired
entry (elapsed at least the TTL) yields `none`; whenever the result is
`none` the key holds no entry afterwards and no other key changed; and on a
true miss (no entry at all) the result is `none` with the whole cache state
returned unchanged. -/
theorem get_absent_is_lazy_cleanup (c : Cache V) (k : String) (now : Int) :
    (∀ e, c k = some e → CACHE_TTL_MS ≤ now - e.timestamp →
      (getCache c k now).1 = none) ∧
    ((getCache c k now).1 = none →
      (getCache c k now).2 k = none ∧
      ∀ k2, k2 ≠ k → (getCache c k now).2 k2 = c k2) ∧
    (c k = none → getCache c k now = (none, c)) := by
  refine ⟨?_, ?_, ?_⟩
  · intro e he hexp
    unfold getCache
    rw [he]
    simp [not_lt.mpr hexp]
  · intro hmiss
    refine ⟨getCache_miss_deletes c k now hmiss, ?_⟩
    intro k2 hne
    unfold getCache at *
    cases hc : c k with
    | none => simp [hc]
    | some e =>
        simp only [hc] at hmiss ⊢
        by_cases hf : now - e.timestamp < CACHE_TTL_MS
        · simp [hf] at hmiss
        · simp [hf, hne]
  · intro habs
    exact getCache_of_absent c k now habs

theorem get_absent_is_lazy_cleanup_w :
    ((getCache (setCache (emptyCache Nat) "a" 5 0) "a" 300000).1 = none ∧
      (getCache (setCache (emptyCache Nat) "a" 5 0) "a" 300000).2 "a" = none) ∧
    getCache (emptyCache Nat) "b" 1 = (none, emptyCache Nat) :=
  have h1 := get_absent_is_lazy_cleanup (setCache (emptyCache Nat) "a" 5 0) "a" 300000
  have h2 := get_absent_is_lazy_cleanup (emptyCache Nat) "b" 1
  have habs : (getCache (setCache (emptyCache Nat) "a" 5 0) "a" 300000).1 = none :=
    h1.1 ⟨5, 0⟩ (by decide) (by decide)
  ⟨⟨habs, (h1.2.1 habs).1⟩, h2.2.2 rfl⟩

/-- C6: `setCache k v1` then `setCache k v2` leaves exactly the second
value with the second timestamp under `k` — the write replaces the prior
entry whatever its expiry state — and a `getCache k` before the second
write expires returns `v2`. -/
theorem overwrite_last_write_wins (c : Cache V) (k : String) (v1 v2 : V)
    (t1 t2 : Int) :
    setCache (setCache c k v1 t1) k v2 t2 k = some ⟨v2, t2⟩ ∧
    ∀ t', t' - t2 < CACHE_TTL_MS →
      (getCache (setCache (setCache c k v1 t1) k v2 t2) k t').1 = some v2 := by
  constructor
  · simp [setCache]
  · intro t' hfresh
    have hk : setCache (setCache c k v1 t1) k v2 t2 k = some ⟨v2, t2⟩ := by
      simp [setCache]
    unfold getCache
    rw [hk]
    simp [hfresh]

theorem overwrite_last_write_wins_w :
    (getCache (setCache (setCache (emptyCache Nat) "a" 1 0) "a" 2 10) "a" 20).1
      = some 2 :=
  (overwrite_last_write_wins (emptyCache Nat) "a" 1 2 0 10).2 20 (by decide)

/-- C7: `invalidateCache k` always leaves no entry under `k`, is a no-op on
a cache with no entry for `k`, and applying it twice in a row produces the
same cache state as applying it once. -/
theorem invalidate_idempotent (c : Cache V) (k : String) :
    invalidateCache c k k = none ∧
    (c k = none → invalidateCache c k = c) ∧
    invalidateCache (invalidateCache c k) k = invalidateCache c k := by
  refine ⟨invalidateCache_apply_self c k, invalidateCache_absent c k, ?_⟩
  exact invalidateCache_absent (invalidateCache c k) k (invalidateCache_apply_self c k)

theorem invalidate_idempotent_w :
    invalidateCache (emptyCache Nat) "k" "k" = none ∧
    invalidateCache (emptyCache Nat) "k" = emptyCache Nat :=
  have h := invalidate_idempotent (emptyCache Nat) "k"
  ⟨h.1, h.2.1 rfl⟩

/-- C8: a `setCache` on `k1` leaves the entry (or absence) of every other
key unchanged, and the value a `getCache` on any distinct `k2` returns is
unaffected by the write. -/
theorem set_isolation (c : Cache V) (k1 k2 : String) (v1 : V) (t : Int)
    (hne : k1 ≠ k2) :
    (∀ k, k ≠ k1 → setCache c k1 v1 t k = c k) ∧
    ∀ now, (getCache (setCache c k1 v1 t) k2 now).1 = (getCache c k2 now).1 := by
  have hframe : ∀ k, k ≠ k1 → setCache c k1 v1 t k = c k := by
    intro k hk
    simp [setCache, hk]
  refine ⟨hframe, ?_⟩
  intro now
  have hk2 : setCache c k1 v1 t k2 = c k2 := hframe k2 (Ne.symm hne)
  unfold getCache
  rw [hk2]
  cases hc : c k2 with
  | none => rfl
  | some e => by_cases hf : now - e.timestamp < CACHE_TTL_MS <;> simp [hf]

theorem set_isolation_w :
    (getCache (setCache (setCache (emptyCache Nat) "b" 9 0) "a" 1 5) "b" 6).1
      = (getCache (setCache (emptyCache Nat) "b" 9 0) "b" 6).1 :=
  (set_isolation (setCache (emptyCache Nat) "b" 9 0) "a" "b" 1 5 (by decide)).2 6

/-- C9: the cache has a single configuration value: `CACHE_TTL_MS`, the
entry lifetime in milliseconds, equal to 300000; it is one global constant
applied uniformly — for every key and entry, a hit occurs exactly when the
elapsed time is below that same constant, with no per-entry override. -/
theorem ttl_single_global_constant :
    CACHE_TTL_MS = 300000 ∧
    ∀ (V : Type) (c : Cache V) (k : String) (e : Entry V) (now : Int),
      c k = some e →
      ((getCache c k now).1 = some e.data ↔ now - e.timestamp < CACHE_TTL_MS) := by
  refine ⟨by decide, ?_⟩
  intro V c k e now hc
  unfold getCache
  rw [hc]
  by_cases hf : now - e.timestamp < CACHE_TTL_MS
  · simp [hf]
  · simp [hf]

theorem ttl_single_global_constant_w :
    CACHE_TTL_MS = 300000 ∧
    ((getCache (setCache (emptyCache Nat) "a" 7 0) "a" 10).1 = some 7 ↔
      (10 : Int) - 0 < CACHE_TTL_MS) :=
  have h := ttl_single_global_constant
  ⟨h.1, h.2 Nat (setCache (emptyCache Nat) "a" 7 0) "a" ⟨7, 0⟩ 10 (by decide)⟩

/-- C10: a `getCache` that hits returns the cache completely unchanged — in
particular the entry's `timestamp` is not refreshed, so reads never extend
an entry's lifetime and its expiry deadline depends only on the last
`setCache` for the key. -/
theorem get_hit_no_mutation (c : Cache V) (k : String) (now : Int) (v : V)
    (h : (getCache c k now).1 = some v) : (getCache c k now).2 = c := by
  unfold getCache at *
  cases hc : c k with
  | none => simp [hc]
  | some e =>
      simp only [hc] at h ⊢
      by_cases hf : now - e.timestamp < CACHE_TTL_MS
      · simp [hf]
      · simp [hf] at h

theorem get_hit_no_mutation_w :
    (getCache (setCache (emptyCache Nat) "a" 7 0) "a" 10).2
      = setCache (emptyCache Nat) "a" 7 0 :=
  get_hit_no_mutation (setCache (emptyCache Nat) "a" 7 0) "a" 10 7 (by decide)

end ClaimTheorems

end SaveSystem
